import Mathlib

set_option maxRecDepth 8192

/- Shallow embedding of the cryptographic core of the web3wallet-cli
repository: the data model (src/models), the validation utilities
(src/utils.rs), the mnemonic service (src/services/mnemonic.rs) and the
keystore encryption/decryption pipeline (src/services/crypto.rs).

Conventions.  Bytes are `Nat` values (reduced mod 256 where the code writes
them), byte buffers are `List Nat`, Rust strings are `String`, and a Rust
`WalletResult` computation is a `RunResult`, which can additionally record a
panic of an underlying library (`GenericArray::from_slice` asserts the slice
length).  The external cryptographic crates (sha2/hmac, pbkdf2, argon2,
aes-gcm, serde_json, bip39, the ethers key derivation) are atomic building
blocks of the program, not code of this repository; they enter the embedding
as the explicit parameter structure `CryptoPrims`, so a theorem that relies
on a documented contract of a crate states that contract as a hypothesis.
Randomness (`rand::thread_rng().fill_bytes`) is passed in as an explicit
byte stream `rng : Nat → Nat`, and `chrono::Utc::now().to_rfc3339()` as an
explicit `now : String`. -/

/-- The apostrophe character (the hardening marker of derivation paths). -/
def tickChar : Char := Char.ofNat 39

/-- The apostrophe as a one-character string. -/
def tickStr : String := String.mk [tickChar]

/-- Lowercase hex digit for a value below 16 (the hex crate's alphabet). -/
def hexDigitChar (n : Nat) : Char :=
  if n < 10 then Char.ofNat (48 + n) else Char.ofNat (87 + n)

/-- `hex::encode`: two lowercase hex digits per byte. -/
def hexEncode (bs : List Nat) : String :=
  String.mk (bs.foldr (fun b acc => hexDigitChar (b % 256 / 16) :: hexDigitChar (b % 16) :: acc) [])

/-- Value of one hex digit; both cases are accepted (`is_ascii_hexdigit`,
and the hex crate's decoding table). -/
def hexDigitVal (c : Char) : Option Nat :=
  if 48 ≤ c.toNat ∧ c.toNat ≤ 57 then some (c.toNat - 48)
  else if 97 ≤ c.toNat ∧ c.toNat ≤ 102 then some (c.toNat - 87)
  else if 65 ≤ c.toNat ∧ c.toNat ≤ 70 then some (c.toNat - 55)
  else none

/-- `char::is_ascii_hexdigit`. -/
def isHexDigitChar (c : Char) : Bool := (hexDigitVal c).isSome

/-- `hex::decode` on a character list: fails on an odd length or a non-hex
character, otherwise yields one byte per digit pair. -/
def hexDecodeList : List Char → Option (List Nat)
  | [] => some []
  | [_] => none
  | c1 :: c2 :: rest =>
    match hexDigitVal c1, hexDigitVal c2, hexDecodeList rest with
    | some h, some l, some bs => some ((16 * h + l) :: bs)
    | _, _, _ => none

/-- `hex::decode` of a string. -/
def hexDecode (s : String) : Option (List Nat) := hexDecodeList s.data

/-- Decimal value of a digit character list. -/
def digitsVal (cs : List Char) : Nat := cs.foldl (fun acc c => 10 * acc + (c.toNat - 48)) 0

/-- The optional single leading plus sign of Rust integer parsing. -/
def dropPlus : List Char → List Char
  | '+' :: rest => rest
  | cs => cs

/-- Rust `str::parse::<u32>()`: at most one leading plus sign followed by
one or more ASCII digits, rejecting values that overflow `u32`. -/
def parseU32 (cs : List Char) : Option Nat :=
  let ds := dropPlus cs
  if ds ≠ [] ∧ ds.all Char.isDigit = true ∧ digitsVal ds < 4294967296 then some (digitsVal ds)
  else none

/-- Rust `str::split('/')` on a character list: separators delimit possibly
empty components; the empty input yields one empty component. -/
def splitSlash : List Char → List (List Char)
  | [] => [[]]
  | '/' :: rest => [] :: splitSlash rest
  | c :: rest =>
    match splitSlash rest with
    | [] => [[c]]
    | w :: ws => (c :: w) :: ws

/-- The number of items of Rust `str::split_whitespace` — the maximal runs
of non-whitespace characters; the flag records whether the scan stands
inside such a run. -/
def wsCountAux : List Char → Bool → Nat
  | [], _ => 0
  | c :: cs, inWord =>
    if c.isWhitespace then wsCountAux cs false
    else (if inWord then 0 else 1) + wsCountAux cs true

/-- `split_whitespace().count()` of a string. -/
def wsCount (s : String) : Nat := wsCountAux s.data false

/-- Words joined by single spaces (the layout `bip39::Mnemonic::to_string`
produces, which `SecureMnemonic` stores). -/
def joinChars : List (List Char) → List Char
  | [] => []
  | [w] => w
  | w :: ws => w ++ ' ' :: joinChars ws

/-- UTF-8 bytes of a character list. -/
def charListBytes (cs : List Char) : List Nat :=
  (cs.flatMap String.utf8EncodeChar).map UInt8.toNat

/-- UTF-8 bytes of a string (Rust `str::as_bytes`). -/
def strBytes (s : String) : List Nat := charListBytes s.data

/-- A key buffer of the requested length filled from a KDF output: the Rust
code allocates `vec![0u8; n]` and the KDF writes into it in place, so the
buffer keeps length `n` whatever the KDF computes. -/
def fillBuf (n : Nat) (xs : List Nat) : List Nat :=
  xs.take n ++ List.replicate (n - xs.length) 0

/-- `format!` with the Debug formatter on an ethers `H160` address: `0x`
followed by the full lowercase hex of the 20 bytes (the fixed-hash crate's
Debug implementation).  The mixed-case checksummed form is not produced by
this formatter. -/
def debugH160 (bs : List Nat) : String := "0x" ++ hexEncode bs

deriving instance DecidableEq for Except

/-- src/errors.rs `CryptographicError` (codes CRYPTO_001 .. CRYPTO_012). -/
inductive CryptographicError
  | insufficientEntropy (available required : Nat) (suggestion : String)
  | invalidMnemonic (detail suggestion : String)
  | invalidPrivateKey (detail expected : String)
  | decryptionFailed (context : String)
  | invalidDerivationPath (path expected : String)
  | kdfFailed (details : String)
  | addressGenerationFailed (details : String)
  | invalidAddressFormat (details suggestion : String)
  | dataCorruption (details : String)
deriving DecidableEq, Repr

/-- src/errors.rs `ValidationError` (codes VALIDATION_001 .. VALIDATION_005;
the command-syntax variant is not referenced by any embedded operation and
is omitted). -/
inductive ValidationError
  | invalidAddressFormat (address expected : String)
  | invalidKeystoreSchema (error filePath : String)
  | integrityCheckFailed (dataType details : String)
  | versionIncompatible (current required : String)
deriving DecidableEq, Repr

/-- src/errors.rs `WalletError`.  The filesystem, user-input, authentication
and network families are not constructed by any embedded core operation and
are collapsed into the unused `io`/`json` carriers. -/
inductive WalletError
  | cryptographic (e : CryptographicError)
  | validation (e : ValidationError)
  | io (msg : String)
  | json (msg : String)
deriving DecidableEq, Repr

/-- Outcome of running an embedded operation: a `WalletResult` value
(`ok` or `err`), or a panic raised by an underlying library. -/
inductive RunResult (α : Type)
  | ok (a : α)
  | err (e : WalletError)
  | panicked (msg : String)
deriving DecidableEq, Repr

/-- src/models/wallet.rs `Wallet`.  The chrono UTC timestamp is modelled by
its RFC3339 string. -/
structure Wallet where
  mnemonic : String
  masterPrivateKey : Option (List Nat)
  address : String
  derivationPath : String
  network : String
  «alias» : Option String
  createdAt : String
deriving DecidableEq, Repr

/-- The serde view of `Wallet`: `master_private_key` carries `#[serde(skip)]`
(never serialized; restored from its `Default`, `None`, on deserialization),
every other field is serialized. -/
structure SerializedWallet where
  mnemonic : String
  address : String
  derivationPath : String
  network : String
  «alias» : Option String
  createdAt : String
deriving DecidableEq, Repr

/-- The serializable fields of a wallet (what `serde_json::to_vec` sees). -/
def Wallet.serialized (w : Wallet) : SerializedWallet :=
  { mnemonic := w.mnemonic, address := w.address, derivationPath := w.derivationPath,
    network := w.network, «alias» := w.«alias», createdAt := w.createdAt }

/-- Rebuilding a wallet from deserialized fields: the skipped
`master_private_key` takes its `Default` value `None`. -/
def walletOfSerialized (sw : SerializedWallet) : Wallet :=
  { mnemonic := sw.mnemonic, masterPrivateKey := none, address := sw.address,
    derivationPath := sw.derivationPath, network := sw.network, «alias» := sw.«alias»,
    createdAt := sw.createdAt }

/-- src/models/keystore.rs `KdfParams`: the untagged two-shape union. -/
inductive KdfParams
  | argon2 (dklen memory time parallelism : Nat) (salt : String)
  | pbkdf2 (dklen c : Nat) (prf salt : String)
deriving DecidableEq, Repr

/-- The `prf` field of a PBKDF2-shaped parameter block. -/
def KdfParams.prfOf : KdfParams → Option String
  | .pbkdf2 _ _ prf _ => some prf
  | _ => none

/-- src/models/keystore.rs `KeystoreMetadata`. -/
structure KeystoreMetadata where
  «alias» : Option String
  address : String
  createdAt : String
  network : String
  keystoreType : String
deriving DecidableEq, Repr

/-- src/models/keystore.rs `CipherParams`. -/
structure CipherParams where
  iv : String
deriving DecidableEq, Repr

/-- src/models/keystore.rs `CryptoParams`. -/
structure CryptoParams where
  cipher : String
  ciphertext : String
  cipherparams : CipherParams
  kdf : String
  kdfparams : KdfParams
  mac : String
deriving DecidableEq, Repr

/-- src/models/keystore.rs `Keystore`. -/
structure Keystore where
  version : String
  metadata : KeystoreMetadata
  crypto : CryptoParams
deriving DecidableEq, Repr

/-- `Keystore::new` (the `_salt` argument is ignored by the source too;
`created_at` is the explicit `now`). -/
def Keystore.new (now : String) («alias» : Option String) (address network : String)
    (encryptedData _salt nonce mac : List Nat) (kdfParams : KdfParams) : Keystore :=
  { version := "1.0.0",
    metadata :=
      { «alias» := «alias», address := address, createdAt := now, network := network,
        keystoreType := "web3wallet-cli" },
    crypto :=
      { cipher := "aes-256-gcm",
        ciphertext := hexEncode encryptedData,
        cipherparams := { iv := hexEncode nonce },
        kdf := match kdfParams with
          | .argon2 _ _ _ _ _ => "argon2id"
          | .pbkdf2 _ _ _ _ => "pbkdf2",
        kdfparams := kdfParams,
        mac := hexEncode mac } }

/-- `Keystore::with_pbkdf2`: note its `prf` string is "hmac-sha256". -/
def Keystore.withPbkdf2 (now : String) («alias» : Option String) (address network : String)
    (encryptedData salt nonce mac : List Nat) (iterations : Nat) : Keystore :=
  Keystore.new now «alias» address network encryptedData salt nonce mac
    (.pbkdf2 32 iterations "hmac-sha256" (hexEncode salt))

/-- `Keystore::with_argon2`. -/
def Keystore.withArgon2 (now : String) («alias» : Option String) (address network : String)
    (encryptedData salt nonce mac : List Nat) (memory iterations parallelism : Nat) : Keystore :=
  Keystore.new now «alias» address network encryptedData salt nonce mac
    (.argon2 32 memory iterations parallelism (hexEncode salt))

/-- The persisted salt hex, whichever KDF shape is present
(`Keystore::salt`, selection part). -/
def Keystore.saltHex (ks : Keystore) : String :=
  match ks.crypto.kdfparams with
  | .argon2 _ _ _ _ s => s
  | .pbkdf2 _ _ _ s => s

/-- Does the string start with the two characters `0x`? -/
def strStarts0x (s : String) : Bool :=
  match s.data with
  | '0' :: 'x' :: _ => true
  | _ => false

/-- `Keystore::validate` (src/models/keystore.rs lines 206-293).  String
lengths are byte lengths, as in Rust.  The underlying hex error displays
appended by the source to its messages are elided; the fixed message parts
are kept. -/
def Keystore.validate (ks : Keystore) : Except WalletError Unit :=
  if ks.version = "" then
    .error (.validation (.invalidKeystoreSchema "Missing version" "keystore"))
  else if strStarts0x ks.metadata.address = false ∨ (strBytes ks.metadata.address).length ≠ 42 then
    .error (.validation (.invalidKeystoreSchema "Invalid address format" "keystore"))
  else if ks.metadata.network = "" then
    .error (.validation (.invalidKeystoreSchema "Missing network" "keystore"))
  else if ks.crypto.cipher ≠ "aes-256-gcm" then
    .error (.validation (.invalidKeystoreSchema "Unsupported cipher" "keystore"))
  else if (hexDecode ks.crypto.ciphertext).isNone then
    .error (.validation (.invalidKeystoreSchema "Invalid ciphertext hex" "keystore"))
  else if (hexDecode ks.crypto.cipherparams.iv).isNone then
    .error (.validation (.invalidKeystoreSchema "Invalid IV hex" "keystore"))
  else if (hexDecode ks.crypto.mac).isNone then
    .error (.validation (.invalidKeystoreSchema "Invalid MAC hex" "keystore"))
  else
    match ks.crypto.kdfparams with
    | .argon2 dklen memory time parallelism salt =>
      if (hexDecode salt).isNone then
        .error (.validation (.invalidKeystoreSchema "Invalid Argon2 salt hex" "keystore"))
      else if dklen = 0 ∨ memory = 0 ∨ time = 0 ∨ parallelism = 0 then
        .error (.validation (.invalidKeystoreSchema "Invalid Argon2 parameters" "keystore"))
      else .ok ()
    | .pbkdf2 dklen c _ salt =>
      if (hexDecode salt).isNone then
        .error (.validation (.invalidKeystoreSchema "Invalid PBKDF2 salt hex" "keystore"))
      else if dklen = 0 ∨ c = 0 then
        .error (.validation (.invalidKeystoreSchema "Invalid PBKDF2 parameters" "keystore"))
      else .ok ()

/-- src/config.rs constants (namespaced as in the source). -/
def config.DEFAULT_DERIVATION_PATH : String :=
  "m/44" ++ tickStr ++ "/60" ++ tickStr ++ "/0" ++ tickStr ++ "/0"

def config.SALT_LENGTH : Nat := 32

def config.NONCE_LENGTH : Nat := 32

def config.KEY_LENGTH : Nat := 32

/-- `config::get_argon2_config` (memory KiB, iterations, parallelism). -/
def config.getArgon2Config (useLowMemory : Bool) : Nat × Nat × Nat :=
  if useLowMemory then (19456, 2, 1) else (47104, 1, 1)

/-- `config::is_supported_word_count`. -/
def config.isSupportedWordCount (c : Nat) : Bool := c = 12 || c = 24

/-- `config::entropy_bits_for_word_count`. -/
def config.entropyBitsForWordCount : Nat → Option Nat
  | 12 => some 128
  | 24 => some 256
  | _ => none

/-- The result of building an ethers signing wallet: the signer's 32 raw
private-key bytes and the 20 address bytes. -/
structure EthersWallet where
  privKey : List Nat
  addressBytes : List Nat
deriving DecidableEq, Repr

/-- The external crates the core composes, as explicit parameters:
HMAC-SHA256 (key, data), PBKDF2-HMAC-SHA256 (password, salt, iterations,
dklen), Argon2id (password, salt, memory, time, parallelism, dklen; the
parameter check and the hash can fail), AES-256-GCM seal/open (key, nonce,
data), serde_json for the wallet struct, bip39 parsing and entropy encoding,
and the ethers key derivation (from a mnemonic with the builder's default
path, or from a raw private-key hex string). -/
structure CryptoPrims where
  hmacSha256 : List Nat → List Nat → List Nat
  pbkdf2Sha256 : List Nat → List Nat → Nat → Nat → List Nat
  argon2id : List Nat → List Nat → Nat → Nat → Nat → Nat → Except String (List Nat)
  aesGcmEncrypt : List Nat → List Nat → List Nat → Except String (List Nat)
  aesGcmDecrypt : List Nat → List Nat → List Nat → Except String (List Nat)
  jsonEncodeWallet : SerializedWallet → Except String (List Nat)
  jsonDecodeWallet : List Nat → Except String SerializedWallet
  bip39FromStr : String → Except String Unit
  ethersBuild : String → Except String EthersWallet
  localWalletOf : String → Except String EthersWallet
  mnemonicFromEntropy : List Nat → Except String (List String)

/-- src/utils.rs: the characters left after stripping one optional `0x`. -/
def strip0x (s : String) : List Char :=
  match s.data with
  | '0' :: 'x' :: rest => rest
  | cs => cs

/-- src/utils.rs `validate_private_key`.  The length check is Rust
`str::len`, a UTF-8 byte length; the hex check iterates over `chars()`. -/
def validatePrivateKey (key : String) : Except WalletError Unit :=
  let pk := strip0x key
  if (charListBytes pk).length ≠ 64 then
    .error (.validation (.invalidAddressFormat key "64 hexadecimal characters"))
  else if !pk.all isHexDigitChar then
    .error (.validation (.invalidAddressFormat key "hexadecimal only"))
  else .ok ()

/-- The numeral part of a path component: one trailing apostrophe, when
present, is removed. -/
def stripTick (comp : List Char) : List Char :=
  if comp.getLast? = some tickChar then comp.dropLast else comp

/-- The component loop of `validate_derivation_path` (first error wins; the
misspelled message "numberic path components" is the source's). -/
def pathLoop (path : String) : List (List Char) → Except WalletError Unit
  | [] => .ok ()
  | comp :: rest =>
    if comp = [] then
      .error (.validation (.invalidAddressFormat path "non-empty path components"))
    else if (parseU32 (stripTick comp)).isNone then
      .error (.validation (.invalidAddressFormat path "numberic path components"))
    else pathLoop path rest

/-- src/utils.rs `validate_derivation_path`. -/
def validateDerivationPath (path : String) : Except WalletError Unit :=
  match path.data with
  | 'm' :: '/' :: rest => pathLoop path (splitSlash rest)
  | _ =>
    .error (.validation (.invalidAddressFormat path
      ("path string starting with " ++ tickStr ++ "m/" ++ tickStr)))

/-- `Wallet::from_mnemonic` (src/models/wallet.rs lines 29-59): bip39
parsing, the ethers mnemonic builder with its default derivation path, and
Debug formatting of the resulting `H160` address. -/
def Wallet.fromMnemonic (P : CryptoPrims) (now : String) (mnemonic network : String)
    («alias» : Option String) : RunResult Wallet :=
  match P.bip39FromStr mnemonic with
  | .error e =>
    .err (.cryptographic (.invalidMnemonic e
      "Ensure the mnemonic is valid and follows BIP39 standards"))
  | .ok _ =>
    match P.ethersBuild mnemonic with
    | .error e => .err (.cryptographic (.addressGenerationFailed e))
    | .ok ew =>
      .ok { mnemonic := mnemonic, masterPrivateKey := some ew.privKey,
            address := debugH160 ew.addressBytes,
            derivationPath := config.DEFAULT_DERIVATION_PATH,
            network := network, «alias» := «alias», createdAt := now }

/-- `Wallet::from_private_key` (src/models/wallet.rs lines 61-96): the
utils validator runs first, so its `ValidationError` is what a wrong-length
or non-hex string produces; the function's own length check with the
`InvalidPrivateKey` variant is only reached afterwards. -/
def Wallet.fromPrivateKey (P : CryptoPrims) (now : String) (privateKey network : String)
    («alias» : Option String) : RunResult Wallet :=
  match validatePrivateKey privateKey with
  | .error e => .err e
  | .ok _ =>
    let keyStr := strip0x privateKey
    if (charListBytes keyStr).length ≠ 64 then
      .err (.cryptographic (.invalidPrivateKey
        ("Expected 64 hex characters, got " ++ toString (charListBytes keyStr).length)
        "64 hex characters (with or without 0x prefix)"))
    else
      match P.localWalletOf (String.mk keyStr) with
      | .error e => .err (.cryptographic (.invalidPrivateKey e "valid secp256k1 private key"))
      | .ok ew =>
        .ok { mnemonic := "", masterPrivateKey := some ew.privKey,
              address := debugH160 ew.addressBytes,
              derivationPath := config.DEFAULT_DERIVATION_PATH,
              network := network, «alias» := «alias», createdAt := now }

/-- src/services/mnemonic.rs `SecureMnemonic` (the phrase container). -/
structure SecureMnemonic where
  phrase : String
deriving DecidableEq, Repr

/-- `SecureMnemonic::word_count`: `split_whitespace().count()`. -/
def SecureMnemonic.wordCount (m : SecureMnemonic) : Nat := wsCount m.phrase

/-- `MnemonicService::generate` (src/services/mnemonic.rs lines 69-95).  On
an unsupported word count it returns `CryptographicError::InvalidAddressFormat`
with the "Unsupported word count" message; the enum has no dedicated
word-count variant. -/
def MnemonicService.generate (P : CryptoPrims) (rng : Nat → Nat) (wordCount : Nat) :
    RunResult SecureMnemonic :=
  if !config.isSupportedWordCount wordCount then
    .err (.cryptographic (.invalidAddressFormat
      ("Unsupported word count: " ++ toString wordCount) "Use 12 or 24 words"))
  else
    match config.entropyBitsForWordCount wordCount with
    | none =>
      .err (.cryptographic (.invalidMnemonic
        ("Cannot determinate entropy for " ++ toString wordCount ++ " words")
        "Use 12 or 24 words!"))
    | some entropyBits =>
      let entropy := (List.range (entropyBits / 8)).map (fun i => rng i % 256)
      match P.mnemonicFromEntropy entropy with
      | .error e =>
        .err (.cryptographic (.invalidMnemonic e "Ensure system has adequate entropy sources"))
      | .ok ws => .ok ⟨String.mk (joinChars (ws.map String.data))⟩

/-- `CryptoService::compute_mac` (src/services/crypto.rs lines 125-138):
HMAC-SHA256 keyed by the stretched key, updated with the ciphertext and then
the nonce — i.e. computed over their plain concatenation.  `Hmac::<Sha256>`
accepts keys of any length, so the setup error arm is unreachable and the
function is total. -/
def CryptoService.computeMac (P : CryptoPrims) (key ciphertext nonce : List Nat) : List Nat :=
  P.hmacSha256 key (ciphertext ++ nonce)

/-- The PBKDF2 kdfparams block built inside `encrypt_wallet`
(src/services/crypto.rs lines 59-66).  Its `prf` string is the source's
literal "hmc-sha256" — not the "hmac-sha256" of `Keystore::with_pbkdf2`. -/
def encryptPbkdf2Params (salt : List Nat) : KdfParams :=
  .pbkdf2 32 100000 "hmc-sha256" (hexEncode salt)

/-- `CryptoService::encrypt_wallet` (src/services/crypto.rs lines 19-98).
The 32-byte salt and the 32-byte nonce buffer are drawn from the byte
stream; key stretching follows the flag; `Aes256Gcm::new_from_slice`
requires a 32-byte key; `Nonce::from_slice` is `GenericArray::<u8, U12>::
from_slice`, which panics unless the slice has exactly 12 bytes — the
32-byte nonce buffer therefore panics before any encryption. -/
def CryptoService.encryptWallet (P : CryptoPrims) (rng : Nat → Nat) (now : String)
    (wallet : Wallet) (password : String) (useArgon2 : Bool) : RunResult Keystore :=
  match P.jsonEncodeWallet wallet.serialized with
  | .error e => .err (.cryptographic (.kdfFailed ("Wallet serialization failed: " ++ e)))
  | .ok walletData =>
    let salt := (List.range config.SALT_LENGTH).map (fun i => rng i % 256)
    let nonceBytes :=
      (List.range config.NONCE_LENGTH).map (fun i => rng (config.SALT_LENGTH + i) % 256)
    let kdfResult : Except WalletError (KdfParams × List Nat) :=
      if useArgon2 then
        match P.argon2id (strBytes password) salt 47104 1 1 config.KEY_LENGTH with
        | .error e => .error (.cryptographic (.kdfFailed e))
        | .ok out =>
          .ok (.argon2 32 47104 1 1 (hexEncode salt), fillBuf config.KEY_LENGTH out)
      else
        .ok (encryptPbkdf2Params salt,
          fillBuf config.KEY_LENGTH (P.pbkdf2Sha256 (strBytes password) salt 100000 config.KEY_LENGTH))
    match kdfResult with
    | .error e => .err e
    | .ok (kdfParams, keyBytes) =>
      if keyBytes.length ≠ 32 then
        .err (.cryptographic (.kdfFailed "AES cipher creation failed"))
      else if nonceBytes.length ≠ 12 then
        .panicked "GenericArray::from_slice length mismatch"
      else
        match P.aesGcmEncrypt keyBytes nonceBytes walletData with
        | .error e => .err (.cryptographic (.decryptionFailed ("Encryption failed: " ++ e)))
        | .ok ciphertext =>
          .ok (Keystore.new now wallet.«alias» wallet.address wallet.network
            ciphertext salt nonceBytes (CryptoService.computeMac P keyBytes ciphertext nonceBytes)
            kdfParams)

/-- Key re-stretching inside `decrypt_wallet` (src/services/crypto.rs lines
149-165): the algorithm is inferred from the persisted kdfparams shape. -/
def CryptoService.deriveDecryptKey (P : CryptoPrims) (kp : KdfParams)
    (password salt : List Nat) : Except WalletError (List Nat) :=
  match kp with
  | .argon2 _ memory time parallelism _ =>
    match P.argon2id password salt memory time parallelism config.KEY_LENGTH with
    | .error e => .error (.cryptographic (.kdfFailed e))
    | .ok out => .ok (fillBuf config.KEY_LENGTH out)
  | .pbkdf2 _ c _ _ => .ok (fillBuf config.KEY_LENGTH (P.pbkdf2Sha256 password salt c config.KEY_LENGTH))

/-- `CryptoService::decrypt_wallet` (src/services/crypto.rs lines 141-197):
hex-decodes salt, IV and ciphertext (each failure a `DataCorruption`),
re-stretches the key, recomputes the outer MAC, decodes the stored MAC,
compares, and only on a match creates the cipher and opens the ciphertext;
`Nonce::from_slice` again panics unless the IV has exactly 12 bytes. -/
def CryptoService.decryptWallet (P : CryptoPrims) (ks : Keystore) (password : String) :
    RunResult Wallet :=
  match hexDecode ks.saltHex with
  | none => .err (.cryptographic (.dataCorruption "Invalid salt hex"))
  | some salt =>
    match hexDecode ks.crypto.cipherparams.iv with
    | none => .err (.cryptographic (.dataCorruption "Invalid nonce hex"))
    | some nonceBytes =>
      match hexDecode ks.crypto.ciphertext with
      | none => .err (.cryptographic (.dataCorruption "Invalid ciphertext hex"))
      | some ciphertext =>
        match CryptoService.deriveDecryptKey P ks.crypto.kdfparams (strBytes password) salt with
        | .error e => .err e
        | .ok keyBytes =>
          match hexDecode ks.crypto.mac with
          | none => .err (.cryptographic (.dataCorruption "Invalid MAC hex"))
          | some storedMac =>
            if CryptoService.computeMac P keyBytes ciphertext nonceBytes ≠ storedMac then
              .err (.cryptographic (.decryptionFailed "Mac verified failed"))
            else if keyBytes.length ≠ 32 then
              .err (.cryptographic (.kdfFailed "AES cipher creation failed"))
            else if nonceBytes.length ≠ 12 then
              .panicked "GenericArray::from_slice length mismatch"
            else
              match P.aesGcmDecrypt keyBytes nonceBytes ciphertext with
              | .error e =>
                .err (.cryptographic (.decryptionFailed ("Decryption failed: " ++ e)))
              | .ok decryptedData =>
                match P.jsonDecodeWallet decryptedData with
                | .error e =>
                  .err (.cryptographic (.dataCorruption ("Failed to parse wallet JSON: " ++ e)))
                | .ok sw => .ok (walletOfSerialized sw)

/-- A concrete instantiation of the crate parameters, used to evaluate the
embedding on closed inputs.  The components are arbitrary total functions
with the right signatures; a theorem that relies on a genuine contract of a
crate carries the contract as an explicit hypothesis and is instantiated on
this record only where the record satisfies it. -/
def trivPrims : CryptoPrims where
  hmacSha256 := fun _ _ => [1]
  pbkdf2Sha256 := fun _ _ _ n => List.replicate n 0
  argon2id := fun _ _ _ _ _ n => .ok (List.replicate n 0)
  aesGcmEncrypt := fun _ _ pt => .ok pt
  aesGcmDecrypt := fun _ _ ct => .ok ct
  jsonEncodeWallet := fun _ => .ok []
  jsonDecodeWallet := fun _ => .error "eof"
  bip39FromStr := fun _ => .ok ()
  ethersBuild := fun _ => .error "unsupported"
  localWalletOf := fun _ => .error "unsupported"
  mnemonicFromEntropy := fun e => .ok (List.replicate ((8 * e.length + 8 * e.length / 32) / 11) "word")

/-- A sample wallet value for closed evaluations. -/
def sampleWallet : Wallet :=
  { mnemonic := "", masterPrivateKey := none,
    address := "0x0000000000000000000000000000000000000000",
    derivationPath := config.DEFAULT_DERIVATION_PATH, network := "mainnet",
    «alias» := none, createdAt := "t" }

/-- Sample serialized-wallet fields for closed evaluations. -/
def sampleSW : SerializedWallet :=
  { mnemonic := "", address := "0x0000000000000000000000000000000000000000",
    derivationPath := config.DEFAULT_DERIVATION_PATH, network := "mainnet",
    «alias» := none, createdAt := "t" }

/-- A well-formed PBKDF2 keystore with single-byte hex fields. -/
def c3Ks : Keystore :=
  { version := "1.0.0",
    metadata :=
      { «alias» := none, address := "0x0000000000000000000000000000000000000000",
        createdAt := "t", network := "mainnet", keystoreType := "web3wallet-cli" },
    crypto :=
      { cipher := "aes-256-gcm", ciphertext := "00", cipherparams := { iv := "00" },
        kdf := "pbkdf2", kdfparams := .pbkdf2 32 1 "hmac-sha256" "00", mac := "00" } }

/-- The same keystore with a salt that is not valid hex. -/
def badSaltKs : Keystore :=
  { c3Ks with crypto.kdfparams := .pbkdf2 32 1 "hmac-sha256" "zz" }

/-- Primitives whose HMAC output matches the stored one-byte MAC of `c3Ks`. -/
def macOkPrims : CryptoPrims := { trivPrims with hmacSha256 := fun _ _ => [0] }

/-- A keystore whose MAC verifies under `macOkPrims` but whose IV is empty:
decryption reaches `Nonce::from_slice` with 0 bytes. -/
def panicKs : Keystore := { c3Ks with crypto.cipherparams := { iv := "" } }

/-- Primitives under which decryption of `decKs` fully succeeds. -/
def decPrims : CryptoPrims :=
  { trivPrims with hmacSha256 := fun _ _ => [0], jsonDecodeWallet := fun _ => .ok sampleSW }

/-- A keystore with a 12-byte IV whose MAC verifies under `decPrims`. -/
def decKs : Keystore := { c3Ks with crypto.cipherparams := { iv := "000000000000000000000000" } }

/-- A keystore whose metadata address has the right shape (`0x` + 40 chars)
but consists of non-hex characters. -/
def ksAddrZ : Keystore :=
  { c3Ks with metadata.address := "0x" ++ String.mk (List.replicate 40 'z') }

/-- The 20 address bytes of the BIP44 known vector (first account of the
test mnemonic), as pinned by the spec and the repository's tests. -/
def vectorBytes : List Nat :=
  [0x98, 0x58, 0xef, 0xfd, 0x23, 0x2b, 0x40, 0x33, 0xe4, 0x7d,
   0x90, 0x00, 0x3d, 0x41, 0xec, 0x34, 0xec, 0xae, 0xda, 0x94]

/-- The known-vector mnemonic. -/
def vectorMnemonic : String :=
  "abandon abandon abandon abandon abandon abandon abandon abandon abandon abandon abandon about"

/-- Primitives recording the ethers derivation of the known vector: the
builder maps the vector mnemonic to the vector address bytes. -/
def vectorPrims : CryptoPrims :=
  { trivPrims with ethersBuild := fun _ => .ok ⟨List.replicate 32 1, vectorBytes⟩ }

/-- Declarative validity of a KDF parameter block: salt hex-decodable and
every numeric field non-zero, for whichever shape is present. -/
def kdfParamsValid : KdfParams → Prop
  | .argon2 dklen memory time parallelism salt =>
    (hexDecode salt).isNone = false ∧ dklen ≠ 0 ∧ memory ≠ 0 ∧ time ≠ 0 ∧ parallelism ≠ 0
  | .pbkdf2 dklen c _ salt =>
    (hexDecode salt).isNone = false ∧ dklen ≠ 0 ∧ c ≠ 0

instance : DecidablePred kdfParamsValid := fun kp => by
  cases kp <;> (unfold kdfParamsValid; infer_instance)

/-- The declarative keystore schema: non-empty version and network, an
address of shape `0x` plus exactly 40 further bytes (hex or not), the one
supported cipher name, hex-decodable ciphertext, IV and MAC, and a valid
KDF parameter block. -/
def keystoreSchemaOk (ks : Keystore) : Prop :=
  ks.version ≠ "" ∧
  strStarts0x ks.metadata.address = true ∧
  (strBytes ks.metadata.address).length = 42 ∧
  ks.metadata.network ≠ "" ∧
  ks.crypto.cipher = "aes-256-gcm" ∧
  (hexDecode ks.crypto.ciphertext).isNone = false ∧
  (hexDecode ks.crypto.cipherparams.iv).isNone = false ∧
  (hexDecode ks.crypto.mac).isNone = false ∧
  kdfParamsValid ks.crypto.kdfparams

instance : DecidablePred keystoreSchemaOk := fun ks => by
  unfold keystoreSchemaOk; infer_instance

set_option maxHeartbeats 1600000 in
/-- Claim C7 (amended): `Keystore::validate` accepts exactly the keystores
with non-empty version and network, an address that starts with `0x` and
has byte length 42 — hex-ness of the 40 remaining characters is NOT
checked — cipher name "aes-256-gcm", hex-decodable ciphertext, IV and MAC,
and a KDF parameter block with hex-decodable salt and non-zero numeric
fields. -/
theorem c7_validate_characterization (ks : Keystore) :
    Keystore.validate ks = .ok () ↔ keystoreSchemaOk ks := by
  unfold Keystore.validate keystoreSchemaOk
  rcases hkp : ks.crypto.kdfparams with ⟨dklen, memory, time, par, salt⟩ | ⟨dklen, c, prf, salt⟩ <;>
    simp only [hkp, kdfParamsValid] <;>
    split_ifs <;>
    simp_all [Bool.not_eq_true, not_or, Option.isSome_iff_ne_none] <;>
    aesop

/-- Claim C7 witness: a concrete keystore accepted through the
characterization. -/
theorem c7_validate_characterization_witness : Keystore.validate c3Ks = .ok () :=
  (c7_validate_characterization c3Ks).mpr (by decide)

/-- Claim C7 counterexample: a keystore whose metadata address is `0x`
followed by forty letters `z` — not hex — passes `Keystore::validate`,
contradicting the claimed rejection of correct-length non-hex addresses. -/
theorem c7_counterexample :
    Keystore.validate ksAddrZ = .ok () ∧
    (strip0x ksAddrZ.metadata.address).all isHexDigitChar = false := by
  exact ⟨by decide, by decide⟩

/-- Claim C5 (amended): a private-key string whose UTF-8 byte length after
stripping an optional `0x` is not 64 (the `str::len` check) fails in
`validate_private_key`, which runs first, with
`ValidationError::InvalidAddressFormat` (code VALIDATION_001) and the
expected-format text "64 hexadecimal characters"; the function's own
`InvalidPrivateKey` length check is unreachable for such inputs. -/
theorem c5_wrong_length_validation_error (P : CryptoPrims) (now network : String)
    (al : Option String) (s : String)
    (h : (charListBytes (strip0x s)).length ≠ 64) :
    Wallet.fromPrivateKey P now s network al =
      .err (.validation (.invalidAddressFormat s "64 hexadecimal characters")) := by
  simp [Wallet.fromPrivateKey, validatePrivateKey, h]

/-- Claim C5 witness: the three-character (three-byte) key "abc". -/
theorem c5_wrong_length_validation_error_witness :
    (charListBytes (strip0x "abc")).length ≠ 64 ∧
    Wallet.fromPrivateKey trivPrims "t" "abc" "mainnet" none =
      .err (.validation (.invalidAddressFormat "abc" "64 hexadecimal characters")) :=
  ⟨by decide, c5_wrong_length_validation_error trivPrims "t" "mainnet" none "abc" (by decide)⟩

/-- Does a run result carry the `CryptographicError::InvalidPrivateKey`
variant? -/
def isInvalidPrivateKeyRes : RunResult Wallet → Bool
  | .err (.cryptographic (.invalidPrivateKey _ _)) => true
  | _ => false

/-- Claim C5 counterexample: `from_private_key` on "abc" returns the
`ValidationError::InvalidAddressFormat` error, not the claimed
`CryptographicError::InvalidPrivateKey` variant. -/
theorem c5_counterexample :
    Wallet.fromPrivateKey trivPrims "t" "abc" "mainnet" none =
      .err (.validation (.invalidAddressFormat "abc" "64 hexadecimal characters")) ∧
    isInvalidPrivateKeyRes (Wallet.fromPrivateKey trivPrims "t" "abc" "mainnet" none) = false := by
  exact ⟨by decide, by decide⟩

/-- Claim C4 (amended): with the ethers derivation returning the known
20 vector bytes for the test mnemonic, `from_mnemonic` yields exactly the
lowercase form "0x9858effd232b4033e47d90003d41ec34ecaeda94" — the Debug
formatter of `H160` prints full lowercase hex, so the checksummed
mixed-case vector matches only case-insensitively (the repository's own
tests compare against the lowercased vector). -/
theorem c4_known_vector_lowercase (P : CryptoPrims) (now : String)
    (h1 : P.bip39FromStr vectorMnemonic = .ok ())
    (ew : EthersWallet) (h2 : P.ethersBuild vectorMnemonic = .ok ew)
    (h3 : ew.addressBytes = vectorBytes) :
    Wallet.fromMnemonic P now vectorMnemonic "mainnet" none =
      .ok { mnemonic := vectorMnemonic, masterPrivateKey := some ew.privKey,
            address := "0x9858effd232b4033e47d90003d41ec34ecaeda94",
            derivationPath := config.DEFAULT_DERIVATION_PATH, network := "mainnet",
            «alias» := none, createdAt := now } := by
  have hd : debugH160 vectorBytes = "0x9858effd232b4033e47d90003d41ec34ecaeda94" := by decide
  unfold Wallet.fromMnemonic
  rw [h1, h2]
  dsimp only
  rw [h3, hd]

/-- Claim C4 witness: the vector primitives instantiate the hypotheses. -/
theorem c4_known_vector_lowercase_witness :
    Wallet.fromMnemonic vectorPrims "t" vectorMnemonic "mainnet" none =
      .ok { mnemonic := vectorMnemonic, masterPrivateKey := some (List.replicate 32 1),
            address := "0x9858effd232b4033e47d90003d41ec34ecaeda94",
            derivationPath := config.DEFAULT_DERIVATION_PATH, network := "mainnet",
            «alias» := none, createdAt := "t" } :=
  c4_known_vector_lowercase vectorPrims "t" rfl ⟨List.replicate 32 1, vectorBytes⟩ rfl rfl

/-- The address field of a successfully created wallet. -/
def addressOfRes : RunResult Wallet → Option String
  | .ok w => some w.address
  | _ => none

/-- Claim C4 counterexample: with the pinned vector bytes the produced
address string is the lowercase hex form and is not (case-sensitively) the
checksummed "0x9858EfFD232B4033E47d90003D41EC34EcaEda94" of the claim. -/
theorem c4_counterexample :
    addressOfRes (Wallet.fromMnemonic vectorPrims "t" vectorMnemonic "mainnet" none) =
      some "0x9858effd232b4033e47d90003d41ec34ecaeda94" ∧
    (addressOfRes (Wallet.fromMnemonic vectorPrims "t" vectorMnemonic "mainnet" none) ==
      some "0x9858EfFD232B4033E47d90003D41EC34EcaEda94") = false := by
  exact ⟨by decide, by decide⟩

/-- A path component the code accepts: non-empty and, after removing one
optional trailing apostrophe, accepted by Rust `u32` parsing. -/
def rustPathComponentOk (comp : List Char) : Bool :=
  (!comp.isEmpty) && (parseU32 (stripTick comp)).isSome

/-- The code's accept-set of derivation paths: `m/` followed by
slash-separated components, each `rustPathComponentOk`. -/
def rustDerivationPathOk (path : String) : Bool :=
  match path.data with
  | 'm' :: '/' :: rest => (splitSlash rest).all rustPathComponentOk
  | _ => false

/-- A path component as the claim words it: after removing one optional
trailing apostrophe, a plain decimal numeral (digits only) whose value fits
`u32`. -/
def specPathComponentOk (comp : List Char) : Bool :=
  (!(stripTick comp).isEmpty) && (stripTick comp).all Char.isDigit &&
    decide (digitsVal (stripTick comp) < 4294967296)

/-- The claim's described accept-set of derivation paths. -/
def specDerivationPathOk (path : String) : Bool :=
  match path.data with
  | 'm' :: '/' :: rest => (splitSlash rest).all specPathComponentOk
  | _ => false

/-- The component loop accepts exactly the lists whose members all satisfy
`rustPathComponentOk`. -/
theorem pathLoop_ok_iff (path : String) (comps : List (List Char)) :
    pathLoop path comps = .ok () ↔ comps.all rustPathComponentOk = true := by
  induction comps with
  | nil => simp [pathLoop]
  | cons comp rest ih =>
    simp only [pathLoop, List.all_cons, Bool.and_eq_true, rustPathComponentOk]
    split_ifs with h1 h2
    · simp [h1]
    · simp only [Option.isNone_iff_eq_none] at h2
      simp [h2]
    · simp only [Option.isNone_iff_eq_none, ← ne_eq, Option.ne_none_iff_isSome] at h2
      simp [h1, h2, ih]

/-- `validate_derivation_path` accepts exactly `rustDerivationPathOk`. -/
theorem validateDerivationPath_ok_iff (path : String) :
    validateDerivationPath path = .ok () ↔ rustDerivationPathOk path = true := by
  unfold validateDerivationPath rustDerivationPathOk
  split
  · exact pathLoop_ok_iff _ _
  · simp

/-- `dropPlus` is the identity on a list not headed by the plus sign. -/
theorem dropPlus_of_head_ne (c : Char) (t : List Char) (h : c ≠ '+') :
    dropPlus (c :: t) = c :: t := by
  unfold dropPlus
  split
  · rename_i heq
    injection heq with h1 _
    exact absurd h1 h
  · rfl

/-- A non-empty all-digit numeral below 2^32 parses as `u32`. -/
theorem parseU32_of_digits (cs : List Char) (hne : cs ≠ [])
    (hdig : cs.all Char.isDigit = true) (hlt : digitsVal cs < 4294967296) :
    (parseU32 cs).isSome = true := by
  cases cs with
  | nil => exact absurd rfl hne
  | cons c t =>
    have hcdig : c.isDigit = true := by
      simp only [List.all_cons, Bool.and_eq_true] at hdig
      exact hdig.1
    have hcplus : c ≠ '+' := by
      intro hc; subst hc; simp [Char.isDigit] at hcdig
    simp only [parseU32]
    rw [dropPlus_of_head_ne c t hcplus, if_pos ⟨List.cons_ne_nil c t, hdig, hlt⟩]
    rfl

/-- A digits-only component is accepted by Rust `u32` parsing. -/
theorem specComponent_imp_rust (comp : List Char) :
    specPathComponentOk comp = true → rustPathComponentOk comp = true := by
  unfold specPathComponentOk rustPathComponentOk
  intro h
  simp only [Bool.and_eq_true, Bool.not_eq_true', decide_eq_true_eq] at h
  obtain ⟨⟨hne, hdig⟩, hlt⟩ := h
  have hne2 : stripTick comp ≠ [] := by
    intro hc; rw [hc] at hne; cases hne
  have hcompne : comp.isEmpty = false := by
    cases hcm : comp with
    | nil =>
      refine absurd ?_ hne2
      rw [hcm]
      simp [stripTick]
    | cons a b => rfl
  simp only [Bool.and_eq_true]
  exact ⟨by simp [hcompne], parseU32_of_digits _ hne2 hdig hlt⟩

/-- Claim C9 (amended): `validate_derivation_path` accepts exactly the
strings `m/` + one or more slash-separated non-empty components, each of
which — after removing one optional trailing apostrophe — is accepted by
Rust `u32` parsing, i.e. one or more decimal digits optionally preceded by
a single plus sign, with value below 2^32.  Every path matching the claim's
digits-only description still validates. -/
theorem c9_path_characterization :
    (∀ path : String, validateDerivationPath path = .ok () ↔ rustDerivationPathOk path = true)
  ∧ (∀ path : String, specDerivationPathOk path = true → validateDerivationPath path = .ok ()) := by
  refine ⟨validateDerivationPath_ok_iff, fun path h => ?_⟩
  rw [validateDerivationPath_ok_iff]
  unfold specDerivationPathOk at h
  unfold rustDerivationPathOk
  split at h
  · simp only [List.all_eq_true] at h ⊢
    exact fun comp hc => specComponent_imp_rust comp (h comp hc)
  · cases h

/-- Claim C9 witness: the default path validates through the
characterization; the two malformed example paths of the claim fall outside
the characterized accept-set. -/
theorem c9_path_characterization_witness :
    validateDerivationPath config.DEFAULT_DERIVATION_PATH = .ok () ∧
    rustDerivationPathOk ("44" ++ tickStr ++ "/60" ++ tickStr ++ "/0" ++ tickStr ++ "/0") = false ∧
    rustDerivationPathOk ("m//44" ++ tickStr ++ "/60" ++ tickStr ++ "/0" ++ tickStr ++ "/0") = false :=
  ⟨(c9_path_characterization.1 _).mpr (by decide), by decide, by decide⟩

/-- Claim C9 counterexample: the code accepts "m/+0", whose component "+0"
is not a decimal numeral (Rust `u32` parsing also permits a leading plus
sign), so the claim's characterization of the accept-set is not exact. -/
theorem c9_counterexample :
    validateDerivationPath "m/+0" = .ok () ∧ specDerivationPathOk "m/+0" = false := by
  exact ⟨by decide, by decide⟩

/-- Scanning a whitespace-free run while already inside a word adds no
word. -/
theorem wsCountAux_nonws (w rest : List Char)
    (hall : ∀ c ∈ w, c.isWhitespace = false) :
    wsCountAux (w ++ rest) true = wsCountAux rest true := by
  induction w with
  | nil => rfl
  | cons c t ih =>
    have hc : c.isWhitespace = false := hall c (List.mem_cons_self c t)
    simp [wsCountAux, hc, ih (fun d hd => hall d (List.mem_cons_of_mem c hd))]

/-- Scanning a non-empty whitespace-free run from outside a word counts
exactly one word. -/
theorem wsCountAux_word (w rest : List Char) (hw : w ≠ [])
    (hall : ∀ c ∈ w, c.isWhitespace = false) :
    wsCountAux (w ++ rest) false = 1 + wsCountAux rest true := by
  cases w with
  | nil => exact absurd rfl hw
  | cons c t =>
    have hc : c.isWhitespace = false := hall c (List.mem_cons_self c t)
    simp [wsCountAux, hc, wsCountAux_nonws t rest (fun d hd => hall d (List.mem_cons_of_mem c hd))]

/-- Joining non-empty whitespace-free words with single spaces yields a
whitespace count equal to the number of words. -/
theorem wsCountAux_join (ws : List (List Char))
    (h : ∀ w ∈ ws, w ≠ [] ∧ ∀ c ∈ w, c.isWhitespace = false) :
    wsCountAux (joinChars ws) false = ws.length := by
  induction ws with
  | nil => rfl
  | cons w tail ih =>
    obtain ⟨hw, hall⟩ := h w (List.mem_cons_self w tail)
    cases tail with
    | nil =>
      have hj : joinChars [w] = w ++ [] := by simp [joinChars]
      rw [hj, wsCountAux_word w [] hw hall]
      rfl
    | cons w2 rest2 =>
      have hj : joinChars (w :: w2 :: rest2) = w ++ ' ' :: joinChars (w2 :: rest2) := rfl
      have hsp : wsCountAux (' ' :: joinChars (w2 :: rest2)) true =
          wsCountAux (joinChars (w2 :: rest2)) false := rfl
      rw [hj, wsCountAux_word w _ hw hall, hsp,
        ih (fun x hx => h x (List.mem_cons_of_mem w hx))]
      simp only [List.length_cons]
      omega

/-- Modelled contract of the bip39 crate: `Mnemonic::from_entropy` on 16 or
32 entropy bytes succeeds with a word list of (ENT + ENT/32)/11 entries
(ENT the entropy bit count), and every produced wordlist word is non-empty
and free of whitespace. -/
def Bip39FromEntropyContract (P : CryptoPrims) : Prop :=
  ∀ e : List Nat, e.length = 16 ∨ e.length = 32 →
    ∃ ws : List String, P.mnemonicFromEntropy e = .ok ws ∧
      ws.length = (8 * e.length + 8 * e.length / 32) / 11 ∧
      ∀ w ∈ ws, w.data ≠ [] ∧ ∀ c ∈ w.data, c.isWhitespace = false

/-- The toy primitives satisfy the bip39 contract. -/
theorem trivPrims_bip39 : Bip39FromEntropyContract trivPrims := by
  intro e _
  refine ⟨_, rfl, by simp [trivPrims], ?_⟩
  intro w hw
  have hwe : w = "word" := List.eq_of_mem_replicate hw
  subst hwe
  exact ⟨by decide, by decide⟩

/-- Claim C6 (amended): for a `u8` word count outside 12 and 24,
`MnemonicService::generate` fails with the misused variant
`CryptographicError::InvalidAddressFormat` (code CRYPTO_011) carrying the
message "Unsupported word count: N" — the error enum has no dedicated
word-count variant; for 12 or 24 it succeeds (given the bip39 crate
contract) and the phrase has exactly that many whitespace-separated
words. -/
theorem c6_generate_word_count (P : CryptoPrims) (rng : Nat → Nat) (wc : Nat)
    (hwc : wc < 256) :
    (¬(wc = 12 ∨ wc = 24) →
      MnemonicService.generate P rng wc =
        .err (.cryptographic (.invalidAddressFormat
          ("Unsupported word count: " ++ toString wc) "Use 12 or 24 words")))
  ∧ ((wc = 12 ∨ wc = 24) → Bip39FromEntropyContract P →
      ∃ m, MnemonicService.generate P rng wc = .ok m ∧ m.wordCount = wc) := by
  constructor
  · intro hns
    have h1 : wc ≠ 12 := fun hh => hns (Or.inl hh)
    have h2 : wc ≠ 24 := fun hh => hns (Or.inr hh)
    have hsup : config.isSupportedWordCount wc = false := by
      unfold config.isSupportedWordCount
      simp [h1, h2]
    unfold MnemonicService.generate
    simp [hsup]
  · intro hsup hcontract
    rcases hsup with h12 | h24
    · subst h12
      have hlen16 : ((List.range (128 / 8)).map (fun i => rng i % 256)).length = 16 := by simp
      obtain ⟨ws, hok, hlen, hwords⟩ := hcontract _ (Or.inl hlen16)
      refine ⟨⟨String.mk (joinChars (ws.map String.data))⟩, ?_, ?_⟩
      · unfold MnemonicService.generate
        simp [hok, config.isSupportedWordCount, config.entropyBitsForWordCount]
      · show wsCountAux (joinChars (ws.map String.data)) false = 12
        rw [wsCountAux_join]
        · rw [List.length_map, hlen, hlen16]
        · intro w hw
          obtain ⟨w0, hw0, rfl⟩ := List.mem_map.mp hw
          exact hwords w0 hw0
    · subst h24
      have hlen32 : ((List.range (256 / 8)).map (fun i => rng i % 256)).length = 32 := by simp
      obtain ⟨ws, hok, hlen, hwords⟩ := hcontract _ (Or.inr hlen32)
      refine ⟨⟨String.mk (joinChars (ws.map String.data))⟩, ?_, ?_⟩
      · unfold MnemonicService.generate
        simp [hok, config.isSupportedWordCount, config.entropyBitsForWordCount]
      · show wsCountAux (joinChars (ws.map String.data)) false = 24
        rw [wsCountAux_join]
        · rw [List.length_map, hlen, hlen32]
        · intro w hw
          obtain ⟨w0, hw0, rfl⟩ := List.mem_map.mp hw
          exact hwords w0 hw0

/-- Claim C6 witness: word count 16 fails with the CRYPTO_011 variant,
word count 12 succeeds with a 12-word phrase. -/
theorem c6_generate_word_count_witness :
    MnemonicService.generate trivPrims (fun _ => 0) 16 =
      .err (.cryptographic (.invalidAddressFormat
        ("Unsupported word count: " ++ toString (16 : Nat)) "Use 12 or 24 words")) ∧
    ∃ m, MnemonicService.generate trivPrims (fun _ => 0) 12 = .ok m ∧ m.wordCount = 12 :=
  ⟨(c6_generate_word_count trivPrims (fun _ => 0) 16 (by decide)).1 (by decide),
   (c6_generate_word_count trivPrims (fun _ => 0) 12 (by decide)).2 (Or.inl rfl) trivPrims_bip39⟩

/-- Does a generate result carry the `InvalidAddressFormat` variant? -/
def isInvalidAddressFormatErr : RunResult SecureMnemonic → Bool
  | .err (.cryptographic (.invalidAddressFormat _ _)) => true
  | _ => false

/-- Claim C6 counterexample: on the unsupported word count 16 the error
actually returned is `CryptographicError::InvalidAddressFormat` — the
`CryptographicError` enum of src/errors.rs has no `UnsupportedWordCount`
variant at all, so the claimed error does not exist in the code. -/
theorem c6_counterexample :
    MnemonicService.generate trivPrims (fun _ => 0) 16 =
      .err (.cryptographic (.invalidAddressFormat
        ("Unsupported word count: " ++ toString (16 : Nat)) "Use 12 or 24 words")) ∧
    isInvalidAddressFormatErr (MnemonicService.generate trivPrims (fun _ => 0) 16) = true := by
  exact ⟨by decide, by decide⟩

/-- The buffer-filling step always yields the requested length, matching the
in-place write into `vec![0u8; n]`. -/
theorem fillBuf_length (n : Nat) (xs : List Nat) : (fillBuf n xs).length = n := by
  simp [fillBuf]
  omega

/-- Is the outcome a `WalletResult::Ok`? -/
def RunResult.isOk {α : Type} : RunResult α → Bool
  | .ok _ => true
  | _ => false

/-- `encrypt_wallet` never returns a keystore: with the PBKDF2 flag it
always reaches the 32-byte `Nonce::from_slice` panic, and with the Argon2
flag it either fails in key stretching or reaches the same panic. -/
theorem encryptWallet_never_ok_aux (P : CryptoPrims) (rng : Nat → Nat) (now : String)
    (w : Wallet) (pw : String) (b : Bool) :
    (CryptoService.encryptWallet P rng now w pw b).isOk = false := by
  unfold CryptoService.encryptWallet
  cases hj : P.jsonEncodeWallet w.serialized with
  | error e => rfl
  | ok wd =>
    cases b with
    | false =>
      simp [RunResult.isOk, fillBuf_length, config.KEY_LENGTH, config.NONCE_LENGTH,
        config.SALT_LENGTH]
    | true =>
      cases har : P.argon2id (strBytes pw) ((List.range 32).map fun i => rng i % 256)
          47104 1 1 32 with
      | error e =>
        simp [har, RunResult.isOk, config.KEY_LENGTH, config.SALT_LENGTH]
      | ok out =>
        simp [har, RunResult.isOk, fillBuf_length, config.KEY_LENGTH, config.NONCE_LENGTH,
          config.SALT_LENGTH]

/-- Claim C1: the encrypt/decrypt round-trip cannot hold on this code —
`encrypt_wallet` never returns a keystore at all, for any wallet, password,
KDF choice or randomness: the 32-byte nonce buffer (config NONCE_LENGTH)
does not fit the 12-byte AES-GCM nonce type and `Nonce::from_slice`
panics, so no keystore exists for `decrypt_wallet` to reconstruct. -/
theorem c1_roundtrip_impossible :
    ∀ (P : CryptoPrims) (rng : Nat → Nat) (now : String) (w : Wallet) (pw : String) (b : Bool),
      (CryptoService.encryptWallet P rng now w pw b).isOk = false :=
  encryptWallet_never_ok_aux

/-- Claim C2: the core operations do panic.  Whenever wallet serialization
succeeds (which for this struct is always), `encrypt_wallet` with the
PBKDF2 flag panics in `GenericArray::from_slice` instead of returning a
tagged error; and `decrypt_wallet` panics on a crafted keystore whose MAC
verifies but whose IV is not 12 bytes. -/
theorem c2_core_panics :
    (∀ (P : CryptoPrims) (rng : Nat → Nat) (now : String) (w : Wallet) (pw : String)
       (bs : List Nat),
        P.jsonEncodeWallet w.serialized = .ok bs →
        CryptoService.encryptWallet P rng now w pw false =
          .panicked "GenericArray::from_slice length mismatch")
  ∧ CryptoService.decryptWallet macOkPrims panicKs "pw" =
      .panicked "GenericArray::from_slice length mismatch" := by
  constructor
  · intro P rng now w pw bs hj
    unfold CryptoService.encryptWallet
    rw [hj]
    simp [fillBuf_length, config.KEY_LENGTH, config.NONCE_LENGTH, config.SALT_LENGTH]
  · decide

/-- Claim C2 witness: a concrete encryption call that panics. -/
theorem c2_core_panics_witness :
    CryptoService.encryptWallet trivPrims (fun _ => 0) "t" sampleWallet "pw" false =
      .panicked "GenericArray::from_slice length mismatch" :=
  c2_core_panics.1 trivPrims (fun _ => 0) "t" sampleWallet "pw" [] rfl

/-- Claim C8: the PBKDF2 kdfparams block that `encrypt_wallet` builds carries
the misspelled prf string "hmc-sha256" (crypto.rs line 64), while the
repository's own `Keystore::with_pbkdf2` constructor writes "hmac-sha256";
moreover `encrypt_wallet` never returns any keystore at all (the nonce
panic), so no keystore with the claimed field is ever produced. -/
theorem c8_prf_mismatch :
    (∀ salt : List Nat, (encryptPbkdf2Params salt).prfOf = some "hmc-sha256")
  ∧ (∀ (now : String) (al : Option String) (addr net : String)
       (ed salt nonce mac : List Nat) (iters : Nat),
      ((Keystore.withPbkdf2 now al addr net ed salt nonce mac iters).crypto.kdfparams).prfOf =
        some "hmac-sha256")
  ∧ ((("hmc-sha256" : String) == "hmac-sha256") = false)
  ∧ (∀ (P : CryptoPrims) (rng : Nat → Nat) (now : String) (w : Wallet) (pw : String),
      (CryptoService.encryptWallet P rng now w pw false).isOk = false) :=
  ⟨fun _ => rfl,
   fun _ _ _ _ _ _ _ _ _ => rfl,
   by decide,
   fun P rng now w pw => encryptWallet_never_ok_aux P rng now w pw false⟩

/-- Swapping the AES-GCM opening function does not change key
re-stretching. -/
theorem deriveDecryptKey_gcm_irrel (P : CryptoPrims)
    (g : List Nat → List Nat → List Nat → Except String (List Nat))
    (kp : KdfParams) (pwb salt : List Nat) :
    CryptoService.deriveDecryptKey { P with aesGcmDecrypt := g } kp pwb salt =
      CryptoService.deriveDecryptKey P kp pwb salt := by
  cases kp <;> rfl

/-- Claim C3 (amended): on every keystore whose salt, IV, ciphertext and MAC
hex fields decode and whose key stretching succeeds, `decrypt_wallet`
recomputes HMAC-SHA256 keyed by the stretched key over ciphertext bytes
followed by nonce bytes (plain concatenation); when that differs from the
stored MAC the result is exactly DecryptionFailed with context
"Mac verified failed", and the outcome is independent of the AES-GCM
decryption function — no decryption is attempted.  (Keystores whose hex
fields do not decode fail earlier with DataCorruption, before any MAC
computation — see the counterexample; and no keystore is ever produced by
encryption, see C1.) -/
theorem c3_mac_checked_first (P : CryptoPrims)
    (g : List Nat → List Nat → List Nat → Except String (List Nat))
    (ks : Keystore) (pw : String) (salt nonce ct mac key : List Nat)
    (hs : hexDecode ks.saltHex = some salt)
    (hn : hexDecode ks.crypto.cipherparams.iv = some nonce)
    (hc : hexDecode ks.crypto.ciphertext = some ct)
    (hm : hexDecode ks.crypto.mac = some mac)
    (hk : CryptoService.deriveDecryptKey P ks.crypto.kdfparams (strBytes pw) salt = .ok key)
    (hne : P.hmacSha256 key (ct ++ nonce) ≠ mac) :
    CryptoService.decryptWallet P ks pw =
      .err (.cryptographic (.decryptionFailed "Mac verified failed")) ∧
    CryptoService.decryptWallet { P with aesGcmDecrypt := g } ks pw =
      .err (.cryptographic (.decryptionFailed "Mac verified failed")) := by
  constructor
  · unfold CryptoService.decryptWallet
    rw [hs, hn, hc]
    dsimp only
    rw [hk]
    dsimp only
    rw [hm]
    dsimp only
    unfold CryptoService.computeMac
    rw [if_pos hne]
  · unfold CryptoService.decryptWallet
    rw [hs, hn, hc]
    dsimp only
    rw [deriveDecryptKey_gcm_irrel, hk]
    dsimp only
    rw [hm]
    dsimp only
    unfold CryptoService.computeMac
    dsimp only
    rw [if_pos hne]

/-- Claim C3 witness: a concrete mismatching keystore fails with exactly the
MAC error. -/
theorem c3_mac_checked_first_witness :
    CryptoService.decryptWallet trivPrims c3Ks "pw" =
      .err (.cryptographic (.decryptionFailed "Mac verified failed")) :=
  (c3_mac_checked_first trivPrims (fun _ _ _ => .error "x") c3Ks "pw" [0] [0] [0] [0]
    (fillBuf 32 (List.replicate 32 0))
    (by decide) (by decide) (by decide) (by decide) (by decide) (by decide)).1

/-- Claim C3 counterexample: a keystore with an undecodable salt (and a
decodable stored MAC that can never equal a recomputed HMAC) fails with
DataCorruption before any MAC computation — not with the claimed
"Mac verified failed" error. -/
theorem c3_counterexample :
    CryptoService.decryptWallet trivPrims badSaltKs "pw" =
      .err (.cryptographic (.dataCorruption "Invalid salt hex")) ∧
    (CryptoService.decryptWallet trivPrims badSaltKs "pw" ==
      .err (.cryptographic (.decryptionFailed "Mac verified failed"))) = false := by
  exact ⟨by decide, by decide⟩

/-- Claim C10: the wallet's raw private-key bytes never reach the
serialized form: serialization and encryption are invariant under changes
of `master_private_key`, and every deserialized wallet — in particular any
successful decryption result — carries `None` there. -/
theorem c10_private_key_never_serialized :
    (∀ (w : Wallet) (k1 k2 : Option (List Nat)),
      ({ w with masterPrivateKey := k1 } : Wallet).serialized =
        ({ w with masterPrivateKey := k2 } : Wallet).serialized)
  ∧ (∀ (P : CryptoPrims) (rng : Nat → Nat) (now pw : String) (b : Bool)
       (w : Wallet) (k1 k2 : Option (List Nat)),
      CryptoService.encryptWallet P rng now { w with masterPrivateKey := k1 } pw b =
        CryptoService.encryptWallet P rng now { w with masterPrivateKey := k2 } pw b)
  ∧ (∀ sw : SerializedWallet, (walletOfSerialized sw).masterPrivateKey = none)
  ∧ (∀ (P : CryptoPrims) (ks : Keystore) (pw : String) (w : Wallet),
      CryptoService.decryptWallet P ks pw = .ok w → w.masterPrivateKey = none) := by
  refine ⟨fun w k1 k2 => rfl, fun P rng now pw b w k1 k2 => rfl, fun sw => rfl, ?_⟩
  intro P ks pw w h
  unfold CryptoService.decryptWallet at h
  repeat' split at h
  all_goals cases h
  all_goals rfl

/-- Claim C10 witness: a concrete successful decryption whose wallet has no
private-key bytes. -/
theorem c10_private_key_never_serialized_witness :
    CryptoService.decryptWallet decPrims decKs "pw" = .ok (walletOfSerialized sampleSW) ∧
    (walletOfSerialized sampleSW).masterPrivateKey = none :=
  ⟨by decide,
   c10_private_key_never_serialized.2.2.2 decPrims decKs "pw" (walletOfSerialized sampleSW)
     (by decide)⟩
